import Mathlib

/-
  Verification development for the NG-Auto-Post-Bot post generator
  (single source file `bot.py`).

  The embedding below translates the pure decision logic of the bot:
  time combination and roll-forward in `schedule_time_received`, the
  channel registry mutated by `add_channel`, the scheduled-post store
  mutated by `post_scheduled`, the per-channel broadcast loop shared by
  `post_to_channels` and `post_scheduled`, MarkdownV2 escaping in
  `escape_markdown`, and the listing projection in
  `check_scheduled_posts`.  Telegram I/O (message sending, prompts) is
  abstracted into oracles: a `send : String → Bool` outcome per channel
  and a `VerifyOutcome` for the admin-capability check.  Python dicts
  loaded from the JSON files become association lists from user id to a
  value; a Python `KeyError` or an uncaught JSON exception is an
  `Except`-style error value.
-/

/-- Kind tag of the stored thumbnail (`thumbnail_type` in `bot.py`:
one of the strings "photo", "video", "animation"). -/
inductive ThumbKind where
  | photo
  | video
  | animation
  deriving DecidableEq

/-- The selected bot variant (`bot_type`: "xrated" or "nightrider"). -/
inductive BotType where
  | xrated
  | nightrider
  deriving DecidableEq

/-- `BOT_TUTORIALS` lookup table from `bot.py`. -/
def BOT_TUTORIALS : BotType → String
  | .xrated => "https://t.me/TutorialsNG/11"
  | .nightrider => "https://t.me/TutorialsNG/10"

/-- The per-user entry of the in-memory `user_data` dict once the
conversation has passed bot selection: thumbnail, link and variant. -/
structure Session where
  thumbnail_id : String
  thumbnail_type : ThumbKind
  video_link : List Char
  bot_type : BotType
  deriving DecidableEq

/-- The `special_chars` list of `escape_markdown`, in source order.
The backtick and the two braces are spelled via their code points. -/
def specialChars : List Char :=
  "_*[]()~".data ++ [Char.ofNat 96] ++ ">#+-=|".data ++
    [Char.ofNat 123, Char.ofNat 125] ++ ".!".data

/-- One step of `escape_markdown`: Python
`text.replace(char, f-string backslash char)` replacing every
occurrence of `c` by a backslash followed by `c`. -/
def replaceAll (c : Char) : List Char → List Char
  | [] => []
  | x :: xs => if x = c then '\\' :: x :: replaceAll c xs else x :: replaceAll c xs

/-- `escape_markdown` from `bot.py`: successive replacement over the
whole `special_chars` list. -/
def escape_markdown (text : List Char) : List Char :=
  specialChars.foldl (fun acc c => replaceAll c acc) text

/-- Handler `video_link_received`: stores
`escape_markdown(update.message.text)` into the session slot
`user_data[user_id]["video_link"]`. -/
def video_link_received (s : Session) (text : List Char) : Session :=
  { s with video_link := escape_markdown text }

/-- Python dict lookup `d[k]` / `k in d` over a JSON-object snapshot,
modelled as the first binding of an association list. -/
def lookupStore {α : Type} : List (String × α) → String → Option α
  | [], _ => none
  | (k, v) :: rest, uid => if k = uid then some v else lookupStore rest uid

/-- Python dict assignment `d[k] = v` over the same snapshot: replaces
the existing binding in place or appends a fresh one. -/
def setStore {α : Type} : List (String × α) → String → α → List (String × α)
  | [], uid, v => [(uid, v)]
  | (k, w) :: rest, uid, v =>
      if k = uid then (uid, v) :: rest else (k, w) :: setStore rest uid v

/-- Content of `channels.json`: user id to ordered channel-id list. -/
abbrev ChannelStore := List (String × List String)

/-- Observable state of a JSON file on disk: absent, present but
unreadable or unparseable, or present with parsed content. -/
inductive FileState (α : Type) where
  | missing
  | corrupt
  | valid (content : α)

/-- `load_channels` from `bot.py`: an absent file yields the empty
dict; an existing file is handed to `json.load`, whose parse or read
failure propagates as an uncaught exception (`.error`). -/
def load_channels (fs : FileState ChannelStore) : Except Unit ChannelStore :=
  match fs with
  | .missing => .ok []
  | .corrupt => .error ()
  | .valid c => .ok c

/-- Outcome of the registry portion of `add_channel` (lines 163-176). -/
inductive RegisterResult where
  | added
  | alreadyPresent
  deriving DecidableEq

/-- Registry portion of `add_channel`: ensure the user's list exists,
append the channel id if absent (then `save_channels`), otherwise
report that it is already in the list without saving. -/
def registerChannel (store : ChannelStore) (uid cid : String) :
    ChannelStore × RegisterResult :=
  let lst := (lookupStore store uid).getD []
  if cid ∈ lst then (store, .alreadyPresent)
  else (setStore store uid (lst ++ [cid]), .added)

/-- Result of the external capability check preceding registration:
`get_chat`/`get_chat_member` raising, or reachable with the
`can_post_messages` flag. -/
inductive VerifyOutcome where
  | unreachable
  | reachable (canPost : Bool)
  deriving DecidableEq

/-- User-visible outcome of `add_channel`. -/
inductive AddChannelOutcome where
  | inaccessible
  | noPermission
  | added
  | alreadyPresent
  deriving DecidableEq

/-- Result of `add_channel`: the durable store content after the call,
the reported outcome, and whether `save_channels` ran. -/
structure AddChannelResult where
  store : ChannelStore
  outcome : AddChannelOutcome
  wrote : Bool
  deriving DecidableEq

/-- `add_channel` (verification part, lines 140-176): an unreachable
channel or a missing `can_post_messages` right refuses the request
before the registry is read or written. -/
def add_channel (store : ChannelStore) (uid cid : String)
    (v : VerifyOutcome) : AddChannelResult :=
  match v with
  | .unreachable => ⟨store, .inaccessible, false⟩
  | .reachable canPost =>
      if canPost = false then ⟨store, .noPermission, false⟩
      else
        match registerChannel store uid cid with
        | (s, .added) => ⟨s, .added, true⟩
        | (s, .alreadyPresent) => ⟨s, .alreadyPresent, false⟩

/-- One record of `scheduled_posts.json` (`post_data` built in
`schedule_time_received`).  `time` is the fire instant in microseconds
since the epoch — the civil string `%Y-%m-%d %H:%M:%S` it is stored as
is order- and equality-isomorphic to this number. -/
structure ScheduledPost where
  time : Nat
  thumbnail_id : String
  thumbnail_type : ThumbKind
  video_link : List Char
  bot_type : BotType
  tutorial_link : String
  status : String
  channels : List String
  user_id : String
  deriving DecidableEq

/-- Content of `scheduled_posts.json`: user id to post list. -/
abbrev SchedStore := List (String × List ScheduledPost)

/-- `load_scheduled_posts` from `bot.py`, same shape as
`load_channels`. -/
def load_scheduled_posts (fs : FileState SchedStore) : Except Unit SchedStore :=
  match fs with
  | .missing => .ok []
  | .corrupt => .error ()
  | .valid c => .ok c

/-- The status string written by `post_scheduled` after firing. -/
def postedStatus (succ total : Nat) : String :=
  "✅ Posted (" ++ toString succ ++ "/" ++ toString total ++ " channels)"

/-- The status update applied to a single record inside the
`post_scheduled` loop: overwrite `status` whenever `time` matches. -/
def markPostedEntry (fireAt succ total : Nat) (p : ScheduledPost) : ScheduledPost :=
  if p.time = fireAt then { p with status := postedStatus succ total } else p

/-- Status-update block of `post_scheduled` (lines 687-694): if the
owner has a list, rewrite the status of every record whose `time`
matches the fired post's `time`, then save. -/
def markPosted (store : SchedStore) (uid : String) (fireAt succ total : Nat) :
    SchedStore :=
  match lookupStore store uid with
  | none => store
  | some posts => setStore store uid (posts.map (markPostedEntry fireAt succ total))

/-- The per-channel delivery loop shared by `post_to_channels` and
`post_scheduled`: each channel is tried in order; a send that raises
puts the channel in `failed_channels`, otherwise in
`success_channels`.  `send` is the transport oracle. -/
def broadcastLoop (send : String → Bool) : List String → List String × List String
  | [] => ([], [])
  | c :: cs =>
      let r := broadcastLoop send cs
      if send c then (c :: r.1, r.2) else (r.1, c :: r.2)

/-- Observable result of `post_to_channels` when it returns (rather
than raises): the caller's `user_data` slot after the call and the two
outcome lists. -/
structure PostNowResult where
  session : Option Session
  success : List String
  failed : List String
  deriving DecidableEq

/-- `post_to_channels` (lines 401-491).  If the user has no channel
list or an empty one, it replies and returns END without touching
`user_data`.  Otherwise it evaluates
`user_data[int(user_id)]["bot_type"]` — a `KeyError` (`.error ()`) when
the session is absent — then broadcasts to every channel and pops the
session.  Every `.ok` return corresponds to `ConversationHandler.END`. -/
def post_to_channels (store : ChannelStore) (uid : String)
    (session : Option Session) (send : String → Bool) :
    Except Unit PostNowResult :=
  let chs := (lookupStore store uid).getD []
  if chs = [] then .ok ⟨session, [], []⟩
  else
    match session with
    | none => .error ()
    | some _ =>
        let r := broadcastLoop send chs
        .ok ⟨none, r.1, r.2⟩

/-- Microseconds per civil day; Python `timedelta(days=1)` at the
resolution of `datetime`. -/
def usecPerDay : Nat := 86400000000

/-- Python `datetime.combine(now, schedule_time)` where
`schedule_time = strptime(user_time, H-colon-M).time()`: today's
midnight plus the parsed hour and minute (seconds and microseconds
zero).  `now` is microseconds since the epoch. -/
def combineDate (now h m : Nat) : Nat :=
  (now / usecPerDay) * usecPerDay + (h * 3600 + m * 60) * 1000000

/-- Roll-forward logic of `schedule_time_received` (lines 560-566):
`if schedule_datetime < now: schedule_datetime += timedelta(days=1)`. -/
def scheduleDatetime (now h m : Nat) : Nat :=
  let d := combineDate now h m
  if d < now then d + usecPerDay else d

/-- How `schedule_time_received` terminates: re-prompt on a
`ValueError` from `strptime`, an uncaught `KeyError` when the session
is missing, or success with the fire instant and the updated store. -/
inductive ScheduleOutcome where
  | retryInvalidTime
  | crashKeyError
  | scheduled (fireAt : Nat) (store : SchedStore)
  deriving DecidableEq

/-- `schedule_time_received` (lines 553-635).  `parsed` is the result
of `strptime` on the message text: `none` raises `ValueError`, caught
by the handler's only `except` clause (re-prompt, stay in
SCHEDULE_TIME).  With a parsed time, `user_data[int(user_id)]` is read
to build `post_data`; a missing session raises `KeyError`, which the
`except ValueError` clause does not catch.  Otherwise the new Pending
record is appended to the owner's list and saved. -/
def schedule_time_received (now : Nat) (parsed : Option (Nat × Nat))
    (uid : String) (session : Option Session)
    (channelStore : ChannelStore) (store : SchedStore) : ScheduleOutcome :=
  match parsed with
  | none => .retryInvalidTime
  | some (h, m) =>
      let fireAt := scheduleDatetime now h m
      match session with
      | none => .crashKeyError
      | some s =>
          let userChannels := (lookupStore channelStore uid).getD []
          let post : ScheduledPost :=
            ⟨fireAt, s.thumbnail_id, s.thumbnail_type, s.video_link, s.bot_type,
              BOT_TUTORIALS s.bot_type, "⏳ Pending", userChannels, uid⟩
          let prior := (lookupStore store uid).getD []
          .scheduled fireAt (setStore store uid (prior ++ [post]))

/-- Observable result of one `post_scheduled` firing: the two outcome
lists and the store content after the status update. -/
structure ScheduledRunResult where
  success : List String
  failed : List String
  store : SchedStore
  deriving DecidableEq

/-- `post_scheduled` (lines 637-694): broadcast to the snapshot
channel list of the fired record, then update the matching records'
status with the success and total counts. -/
def post_scheduled (store : SchedStore) (post : ScheduledPost)
    (send : String → Bool) : ScheduledRunResult :=
  let r := broadcastLoop send post.channels
  ⟨r.1, r.2, markPosted store post.user_id post.time r.1.length post.channels.length⟩

/-- Boolean character-list prefix test, used to model Python
`str.startswith`. -/
def charPrefixB : List Char → List Char → Bool
  | [], _ => true
  | _ :: _, [] => false
  | a :: as, b :: bs => a = b && charPrefixB as bs

/-- Python `s.startswith(p)`. -/
def startsWithCheck (s p : String) : Bool :=
  charPrefixB p.data s.data

/-- Stable insertion into a sorted list, front-biased like Python's
stable `sorted`. -/
def insertLe {α : Type} (le : α → α → Bool) (x : α) : List α → List α
  | [] => [x]
  | y :: ys => if le x y then x :: y :: ys else y :: insertLe le x ys

/-- Stable insertion sort modelling Python `sorted(l, key=...)`. -/
def sortByKey {α : Type} (le : α → α → Bool) : List α → List α
  | [] => []
  | x :: xs => insertLe le x (sortByKey le xs)

/-- `check_scheduled_posts` projection (lines 506-538) over one user's
stored list: `posted_posts` are the records strictly before `now`
whose status starts with the check mark, shown most recent first and
capped at 5; `pending_posts` are all records at or after `now`,
regardless of status, shown in time order. -/
def check_scheduled_posts (posts : List ScheduledPost) (now : Nat) :
    List ScheduledPost × List ScheduledPost :=
  let posted := posts.filter (fun p => decide (p.time < now) && startsWithCheck p.status "✅")
  let pending := posts.filter (fun p => decide (now ≤ p.time))
  ((sortByKey (fun a b => decide (b.time ≤ a.time)) posted).take 5,
    sortByKey (fun a b => decide (a.time ≤ b.time)) pending)

/-
  Helper lemmas about the store embedding.
-/

theorem lookupStore_setStore_self {α : Type} (s : List (String × α)) (k : String) (v : α) :
    lookupStore (setStore s k v) k = some v := by
  induction s with
  | nil => simp [setStore, lookupStore]
  | cons hd tl ih =>
      obtain ⟨k2, w⟩ := hd
      by_cases h : k2 = k
      · simp [setStore, lookupStore, h]
      · simp [setStore, lookupStore, h, ih]

theorem setStore_setStore {α : Type} (s : List (String × α)) (k : String) (v w : α) :
    setStore (setStore s k v) k w = setStore s k w := by
  induction s with
  | nil => simp [setStore]
  | cons hd tl ih =>
      obtain ⟨k2, u⟩ := hd
      by_cases h : k2 = k
      · simp [setStore, h]
      · simp [setStore, h, ih]

/-- C1 counterexample: at an instant falling exactly on a minute
boundary (14:30:00.000000 of epoch day zero), the input 14:30 combines
to an instant equal to now; the strict `<` test does not roll it
forward, so the scheduled instant is not strictly later than now. -/
theorem C1_counterexample :
    scheduleDatetime 52200000000 14 30 = 52200000000 ∧
    ¬ (52200000000 < scheduleDatetime 52200000000 14 30) := by
  refine ⟨rfl, ?_⟩
  norm_num [scheduleDatetime, combineDate, usecPerDay]

/-- C1 (amended): for every valid HH:MM input the scheduled instant is
at or after now (never strictly earlier); a combined instant strictly
in the past rolls forward by exactly one day, and a combined instant
at or after now is kept unchanged — so an instant exactly equal to now
is scheduled at now itself, because the already-past test of
`schedule_time_received` is the strict comparison `<`. -/
theorem C1_amended (now h m : Nat) (hh : h < 24) (hm : m < 60) :
    now ≤ scheduleDatetime now h m ∧
    (combineDate now h m < now →
      scheduleDatetime now h m = combineDate now h m + usecPerDay) ∧
    (now ≤ combineDate now h m →
      scheduleDatetime now h m = combineDate now h m) := by
  simp only [scheduleDatetime, combineDate, usecPerDay]
  refine ⟨?_, ?_, ?_⟩ <;> split <;> omega

/-- C1 witness: the amended theorem evaluated at now = 14:30:00 of
epoch day zero with input 14:30. -/
theorem C1_amended_witness :
    52200000000 ≤ scheduleDatetime 52200000000 14 30 ∧
    (combineDate 52200000000 14 30 < 52200000000 →
      scheduleDatetime 52200000000 14 30 = combineDate 52200000000 14 30 + usecPerDay) ∧
    (52200000000 ≤ combineDate 52200000000 14 30 →
      scheduleDatetime 52200000000 14 30 = combineDate 52200000000 14 30) :=
  C1_amended 52200000000 14 30 (by norm_num) (by norm_num)

/-- C4: in every broadcast invocation the success and failure lists
partition the supplied channel list: their lengths sum to the number
of channels supplied, and every channel occurrence lands in exactly
one of the two outcome lists no matter which sends fail; the same
holds for the outcome lists of a scheduled firing `post_scheduled`. -/
theorem C4_broadcast_partition (send : String → Bool) :
    (∀ channels : List String,
      (broadcastLoop send channels).1.length + (broadcastLoop send channels).2.length
        = channels.length ∧
      ∀ c : String,
        (broadcastLoop send channels).1.count c + (broadcastLoop send channels).2.count c
          = channels.count c) ∧
    (∀ (store : SchedStore) (post : ScheduledPost),
      (post_scheduled store post send).success.length
        + (post_scheduled store post send).failed.length = post.channels.length) := by
  have main : ∀ channels : List String,
      (broadcastLoop send channels).1.length + (broadcastLoop send channels).2.length
        = channels.length ∧
      ∀ c : String,
        (broadcastLoop send channels).1.count c + (broadcastLoop send channels).2.count c
          = channels.count c := by
    intro channels
    induction channels with
    | nil => simp [broadcastLoop]
    | cons c cs ih =>
        obtain ⟨ih1, ih2⟩ := ih
        refine ⟨?_, ?_⟩
        · by_cases hc : send c <;> simp [broadcastLoop, hc] <;> omega
        · intro d
          have h2 := ih2 d
          by_cases hc : send c <;> by_cases hdc : d = c <;>
            simp [broadcastLoop, hc, hdc, List.count_cons] at h2 ⊢ <;> omega
  refine ⟨main, ?_⟩
  intro store post
  have hmain := (main post.channels).1
  simpa [post_scheduled] using hmain

/-- C7: channel registration is idempotent — after any registration of
(uid, cid), registering the same pair again reports AlreadyPresent and
returns the stored mapping unchanged, so the user's stored list keeps
its content and length. -/
theorem C7_register_idempotent (store : ChannelStore) (uid cid : String) :
    registerChannel (registerChannel store uid cid).1 uid cid
      = ((registerChannel store uid cid).1, RegisterResult.alreadyPresent) := by
  by_cases hmem : cid ∈ (lookupStore store uid).getD []
  · simp [registerChannel, hmem]
  · simp [registerChannel, hmem, lookupStore_setStore_self]

/-- C8 counterexample: a present-but-corrupt durable file makes both
load operations raise (an uncaught `json.load` exception) instead of
returning the empty state. -/
theorem C8_counterexample :
    load_channels .corrupt = .error () ∧
    load_channels .corrupt ≠ .ok [] ∧
    load_scheduled_posts .corrupt = .error () ∧
    load_scheduled_posts .corrupt ≠ .ok [] := by
  refine ⟨rfl, ?_, rfl, ?_⟩ <;> simp [load_channels, load_scheduled_posts]

/-- C8 (amended): only a missing file is read as the empty state; a
readable file yields its parsed content, and an unreadable or corrupt
file raises an uncaught exception (fail-closed, not fail-open). -/
theorem C8_amended (c : ChannelStore) (s : SchedStore) :
    load_channels .missing = .ok [] ∧
    load_scheduled_posts .missing = .ok [] ∧
    load_channels (.valid c) = .ok c ∧
    load_scheduled_posts (.valid s) = .ok s ∧
    load_channels .corrupt = .error () ∧
    load_scheduled_posts .corrupt = .error () :=
  ⟨rfl, rfl, rfl, rfl, rfl, rfl⟩

/-- C2 counterexample: with a registered channel and the session slot
absent, `post_to_channels` raises an uncaught KeyError instead of
reporting a recoverable session-expired condition, and so does
`schedule_time_received` on a well-formed time. -/
theorem C2_counterexample :
    post_to_channels [("u", ["chan"])] "u" none (fun _ => true) = .error () ∧
    schedule_time_received 52200000000 (some (12, 0)) "u" none [] [] = .crashKeyError := by
  constructor
  · rfl
  · rfl

/-- C2 (amended): a missing Session is not handled gracefully — in the
post-now flow with a nonempty channel list, and in the schedule-time
flow for every well-formed HH:MM input, the handler raises an
unhandled KeyError when reading `user_data[int(user_id)]`; no
session-expired message exists in the code. -/
theorem C2_amended (store : ChannelStore) (uid : String) (send : String → Bool)
    (now hr mi : Nat) (cstore : ChannelStore) (sstore : SchedStore)
    (hne : (lookupStore store uid).getD [] ≠ []) :
    post_to_channels store uid none send = .error () ∧
    schedule_time_received now (some (hr, mi)) uid none cstore sstore = .crashKeyError := by
  constructor
  · simp [post_to_channels, hne]
  · rfl

/-- C2 witness: the amended theorem at a one-channel store. -/
theorem C2_amended_witness :
    post_to_channels [("u", ["chan"])] "u" none (fun _ => false) = .error () ∧
    schedule_time_received 0 (some (23, 59)) "u" none [] [] = .crashKeyError :=
  C2_amended [("u", ["chan"])] "u" (fun _ => false) 0 23 59 [] [] (by decide)

/-- Applying the status rewrite of `post_scheduled` twice with the
same fire time and counts equals applying it once. -/
theorem markPostedEntry_idem (f s t : Nat) (p : ScheduledPost) :
    markPostedEntry f s t (markPostedEntry f s t p) = markPostedEntry f s t p := by
  by_cases h : p.time = f <;> simp [markPostedEntry, h]

/-- Mapping the status rewrite twice over a record list equals mapping
it once. -/
theorem map_markPostedEntry_idem (f s t : Nat) (posts : List ScheduledPost) :
    posts.map (markPostedEntry f s t ∘ markPostedEntry f s t)
      = posts.map (markPostedEntry f s t) := by
  induction posts with
  | nil => rfl
  | cons q qs ih =>
      simp only [List.map_cons, Function.comp_apply, markPostedEntry_idem]
      rw [ih]

/-- C3 counterexample: a second `markPosted` for the same
(ownerId, fireAt) pair but with different counts overwrites the status
again — the status changes after the first transition, so the record
does not transition exactly once. -/
theorem C3_counterexample :
    (markPosted
        [("u", [(⟨5, "t", ThumbKind.photo, ['l'], BotType.xrated, "tut",
          "⏳ Pending", ["c"], "u"⟩ : ScheduledPost)])] "u" 5 1 2).map
        (fun kv => (kv.1, kv.2.map (fun p => p.status)))
      = [("u", ["✅ Posted (1/2 channels)"])] ∧
    (markPosted (markPosted
        [("u", [(⟨5, "t", ThumbKind.photo, ['l'], BotType.xrated, "tut",
          "⏳ Pending", ["c"], "u"⟩ : ScheduledPost)])] "u" 5 1 2) "u" 5 2 2).map
        (fun kv => (kv.1, kv.2.map (fun p => p.status)))
      = [("u", ["✅ Posted (2/2 channels)"])] := by
  constructor
  · rfl
  · rfl

/-- C3 (amended): `markPosted` is idempotent when re-invoked with the
same (ownerId, fireAt) and the same success and total counts, and the
per-record update only ever touches the status field — every other
field is immutable.  The update is unguarded, however: it overwrites
the status of every record whose time matches, without checking that
the record is still Pending, so a later invocation with different
counts changes the status again. -/
theorem C3_amended (store : SchedStore) (uid : String) (f s t : Nat) :
    markPosted (markPosted store uid f s t) uid f s t = markPosted store uid f s t ∧
    (∀ p : ScheduledPost,
      (markPostedEntry f s t p).time = p.time ∧
      (markPostedEntry f s t p).thumbnail_id = p.thumbnail_id ∧
      (markPostedEntry f s t p).thumbnail_type = p.thumbnail_type ∧
      (markPostedEntry f s t p).video_link = p.video_link ∧
      (markPostedEntry f s t p).bot_type = p.bot_type ∧
      (markPostedEntry f s t p).tutorial_link = p.tutorial_link ∧
      (markPostedEntry f s t p).channels = p.channels ∧
      (markPostedEntry f s t p).user_id = p.user_id) := by
  constructor
  · cases hlk : lookupStore store uid with
    | none =>
        have h1 : markPosted store uid f s t = store := by simp [markPosted, hlk]
        rw [h1, h1]
    | some posts =>
        have h1 : markPosted store uid f s t
            = setStore store uid (posts.map (markPostedEntry f s t)) := by
          simp [markPosted, hlk]
        rw [h1]
        have h2 := lookupStore_setStore_self store uid (posts.map (markPostedEntry f s t))
        simp [markPosted, h2, map_markPostedEntry_idem, setStore_setStore]
  · intro p
    by_cases h : p.time = f <;> simp [markPostedEntry, h]

/-- Replacing a character that does not occur in the text leaves the
text unchanged. -/
theorem replaceAll_of_not_mem (c : Char) (l : List Char) (h : c ∉ l) :
    replaceAll c l = l := by
  induction l with
  | nil => rfl
  | cons x xs ih =>
      rw [List.mem_cons, not_or] at h
      have hx : ¬ (x = c) := fun hxc => h.1 hxc.symm
      simp [replaceAll, hx, ih h.2]

/-- Folding the replacement over characters none of which occur in the
text is the identity. -/
theorem foldl_replaceAll_of_clean (cs : List Char) (text : List Char)
    (h : ∀ c ∈ text, c ∉ cs) :
    cs.foldl (fun acc c => replaceAll c acc) text = text := by
  induction cs generalizing text with
  | nil => rfl
  | cons c cs ih =>
      have hc : c ∉ text := fun hm => (h c hm) (List.mem_cons_self c cs)
      rw [List.foldl_cons, replaceAll_of_not_mem c text hc]
      exact ih text (fun x hx hmem => h x hx (List.mem_cons_of_mem c hmem))

/-- C5 counterexample: the link text is not stored verbatim — the
input a.b is stored with the dot escaped by a backslash. -/
theorem C5_counterexample :
    (video_link_received ⟨"t", ThumbKind.photo, [], BotType.xrated⟩
        ['a', '.', 'b']).video_link = ['a', '\\', '.', 'b'] ∧
    (['a', '\\', '.', 'b'] : List Char) ≠ ['a', '.', 'b'] := by
  constructor
  · rfl
  · decide

/-- C5 (amended): the AwaitingLink transition stores
`escape_markdown(text)`, not the raw text: every MarkdownV2 special
character is prefixed with a backslash before storage, and the stored
value equals the input exactly when the input contains none of the 18
special characters. -/
theorem C5_amended (s : Session) (text : List Char)
    (h : ∀ c ∈ text, c ∉ specialChars) :
    (video_link_received s text).video_link = escape_markdown text ∧
    escape_markdown text = text := by
  constructor
  · simp [video_link_received]
  · exact foldl_replaceAll_of_clean specialChars text h

/-- C5 witness: the amended theorem on the clean text ab. -/
theorem C5_amended_witness :
    (video_link_received ⟨"t", ThumbKind.photo, [], BotType.xrated⟩
        ['a', 'b']).video_link = escape_markdown ['a', 'b'] ∧
    escape_markdown ['a', 'b'] = ['a', 'b'] :=
  C5_amended ⟨"t", ThumbKind.photo, [], BotType.xrated⟩ ['a', 'b'] (by decide)

/-- Membership in a stable insertion is membership in the inserted
element or the original list. -/
theorem mem_insertLe {α : Type} (le : α → α → Bool) (x a : α) (l : List α) :
    a ∈ insertLe le x l ↔ a = x ∨ a ∈ l := by
  induction l with
  | nil => simp [insertLe]
  | cons y ys ih =>
      by_cases h : le x y
      · simp [insertLe, h]
      · simp [insertLe, h, ih]
        tauto

/-- Sorting does not change membership. -/
theorem mem_sortByKey {α : Type} (le : α → α → Bool) (a : α) (l : List α) :
    a ∈ sortByKey le l ↔ a ∈ l := by
  induction l with
  | nil => simp [sortByKey]
  | cons x xs ih => simp [sortByKey, mem_insertLe, ih]

/-- C6 counterexample: a record whose status is still Pending but
whose fire time already passed (time 1, now 2) is surfaced in neither
the posted list nor the pending list — so not every Pending-status
entry is returned. -/
theorem C6_counterexample :
    ((⟨1, "t", ThumbKind.photo, ['l'], BotType.xrated, "tut", "⏳ Pending", ["c"], "u"⟩
      : ScheduledPost)).status = "⏳ Pending" ∧
    check_scheduled_posts
        [⟨1, "t", ThumbKind.photo, ['l'], BotType.xrated, "tut", "⏳ Pending", ["c"], "u"⟩] 2
      = ([], []) := by
  constructor
  · rfl
  · rfl

/-- Stable insertion adds exactly one element to the length. -/
theorem length_insertLe {α : Type} (le : α → α → Bool) (x : α) (l : List α) :
    (insertLe le x l).length = l.length + 1 := by
  induction l with
  | nil => rfl
  | cons y ys ih =>
      by_cases h : le x y <;> simp [insertLe, h, ih]

/-- Sorting preserves length. -/
theorem length_sortByKey {α : Type} (le : α → α → Bool) (l : List α) :
    (sortByKey le l).length = l.length := by
  induction l with
  | nil => rfl
  | cons x xs ih => simp [sortByKey, length_insertLe, ih]

/-- Inserting into a list that is pairwise descending by fire time
keeps it pairwise descending. -/
theorem pairwise_insertLe_timeDesc (x : ScheduledPost) (l : List ScheduledPost)
    (h : List.Pairwise (fun a b => b.time ≤ a.time) l) :
    List.Pairwise (fun a b => b.time ≤ a.time)
      (insertLe (fun a b => decide (b.time ≤ a.time)) x l) := by
  induction l with
  | nil => simp [insertLe]
  | cons y ys ih =>
      have h1 : ∀ z ∈ ys, z.time ≤ y.time := (List.pairwise_cons.mp h).1
      have h2 : List.Pairwise (fun a b => b.time ≤ a.time) ys :=
        (List.pairwise_cons.mp h).2
      by_cases hxy : y.time ≤ x.time
      · have heq : insertLe (fun a b => decide (b.time ≤ a.time)) x (y :: ys)
            = x :: y :: ys := by simp [insertLe, hxy]
        rw [heq]
        refine List.Pairwise.cons ?_ h
        intro z hz
        rcases List.mem_cons.mp hz with rfl | hz
        · exact hxy
        · exact le_trans (h1 z hz) hxy
      · have hyx : x.time ≤ y.time := le_of_not_le hxy
        have heq : insertLe (fun a b => decide (b.time ≤ a.time)) x (y :: ys)
            = y :: insertLe (fun a b => decide (b.time ≤ a.time)) x ys := by
          simp [insertLe, hxy]
        rw [heq]
        refine List.Pairwise.cons ?_ (ih h2)
        intro z hz
        rcases (mem_insertLe _ x z ys).mp hz with rfl | hz
        · exact hyx
        · exact h1 z hz

/-- The descending sort used for the posted section of the listing
always yields a list pairwise descending by fire time. -/
theorem pairwise_sortByKey_timeDesc (l : List ScheduledPost) :
    List.Pairwise (fun a b => b.time ≤ a.time)
      (sortByKey (fun a b => decide (b.time ≤ a.time)) l) := by
  induction l with
  | nil => simp [sortByKey]
  | cons x xs ih =>
      simp only [sortByKey]
      exact pairwise_insertLe_timeDesc x _ ih

/-- C6 (amended): the posted section of the listing is the
most-recent-first projection of the posted-eligible records — those
with fire time strictly before now and a status starting with the
check mark: it holds exactly min 5 (number of eligible records)
entries, only eligible records, ordered by fire time descending, and
any eligible record it omits is no more recent than every record it
surfaces (so with more than 5 eligible records in durable storage the
5 most recent are shown); the pending section contains exactly the
stored entries whose fire time is at or after now, regardless of their
status — hence a Pending-status entry whose fire time has already
passed is returned in neither section. -/
theorem C6_amended (posts : List ScheduledPost) (now : Nat) :
    (check_scheduled_posts posts now).1.length
      = min 5 (posts.filter
          (fun p => decide (p.time < now) && startsWithCheck p.status "✅")).length ∧
    (∀ p : ScheduledPost,
      p ∈ (check_scheduled_posts posts now).1 →
        p ∈ posts ∧ p.time < now ∧ startsWithCheck p.status "✅" = true) ∧
    List.Pairwise (fun a b => b.time ≤ a.time) (check_scheduled_posts posts now).1 ∧
    (∀ q : ScheduledPost,
      q ∈ posts → q.time < now → startsWithCheck q.status "✅" = true →
        q ∈ (check_scheduled_posts posts now).1 ∨
          ∀ p : ScheduledPost,
            p ∈ (check_scheduled_posts posts now).1 → q.time ≤ p.time) ∧
    (∀ p : ScheduledPost,
      p ∈ (check_scheduled_posts posts now).2 ↔ p ∈ posts ∧ now ≤ p.time) := by
  refine ⟨?_, ?_, ?_, ?_, ?_⟩
  · simp only [check_scheduled_posts]
    rw [List.length_take, length_sortByKey]
  · intro p hp
    simp only [check_scheduled_posts] at hp
    have hp2 := List.mem_of_mem_take hp
    rw [mem_sortByKey, List.mem_filter, Bool.and_eq_true, decide_eq_true_eq] at hp2
    exact ⟨hp2.1, hp2.2.1, hp2.2.2⟩
  · simp only [check_scheduled_posts]
    exact List.Pairwise.sublist (List.take_sublist 5 _) (pairwise_sortByKey_timeDesc _)
  · intro q hq hqt hqs
    simp only [check_scheduled_posts]
    set sorted := sortByKey (fun a b => decide (b.time ≤ a.time))
      (posts.filter (fun p => decide (p.time < now) && startsWithCheck p.status "✅"))
      with hs
    have hqsorted : q ∈ sorted := by
      rw [hs, mem_sortByKey, List.mem_filter]
      exact ⟨hq, by simp [hqt, hqs]⟩
    by_cases hmem : q ∈ sorted.take 5
    · exact Or.inl hmem
    · right
      intro p hp
      have hdrop : q ∈ sorted.drop 5 := by
        have hsplit : q ∈ sorted.take 5 ++ sorted.drop 5 := by
          rw [List.take_append_drop]
          exact hqsorted
        rcases List.mem_append.mp hsplit with h | h
        · exact absurd h hmem
        · exact h
      have hpair : List.Pairwise (fun a b => b.time ≤ a.time)
          (sorted.take 5 ++ sorted.drop 5) := by
        rw [List.take_append_drop]
        exact pairwise_sortByKey_timeDesc _
      exact (List.pairwise_append.mp hpair).2.2 p hp q hdrop
  · intro p
    simp [check_scheduled_posts, mem_sortByKey, List.mem_filter]

/-- C6 witness: the amended theorem at the empty store. -/
theorem C6_amended_witness :
    (check_scheduled_posts [] 0).1.length
      = min 5 (([] : List ScheduledPost).filter
          (fun p => decide (p.time < 0) && startsWithCheck p.status "✅")).length ∧
    (∀ p : ScheduledPost,
      p ∈ (check_scheduled_posts [] 0).1 →
        p ∈ ([] : List ScheduledPost) ∧ p.time < 0 ∧ startsWithCheck p.status "✅" = true) ∧
    List.Pairwise (fun a b => b.time ≤ a.time) (check_scheduled_posts [] 0).1 ∧
    (∀ q : ScheduledPost,
      q ∈ ([] : List ScheduledPost) → q.time < 0 → startsWithCheck q.status "✅" = true →
        q ∈ (check_scheduled_posts [] 0).1 ∨
          ∀ p : ScheduledPost,
            p ∈ (check_scheduled_posts [] 0).1 → q.time ≤ p.time) ∧
    (∀ p : ScheduledPost,
      p ∈ (check_scheduled_posts [] 0).2 ↔ p ∈ ([] : List ScheduledPost) ∧ 0 ≤ p.time) :=
  C6_amended [] 0

/-- C9: when the capability check reports the channel unreachable or
without posting rights, `add_channel` refuses the registration: the
durable channel store is returned unchanged and `save_channels` never
runs. -/
theorem C9_refused_unchanged (store : ChannelStore) (uid cid : String)
    (v : VerifyOutcome) (h : v = .unreachable ∨ v = .reachable false) :
    (add_channel store uid cid v).store = store ∧
    (add_channel store uid cid v).wrote = false := by
  rcases h with h | h <;> subst h <;> simp [add_channel]

/-- C9 witness: a refused registration against a one-channel store. -/
theorem C9_refused_unchanged_witness :
    (add_channel [("u", ["c"])] "u" "d" .unreachable).store = [("u", ["c"])] ∧
    (add_channel [("u", ["c"])] "u" "d" .unreachable).wrote = false :=
  C9_refused_unchanged [("u", ["c"])] "u" "d" .unreachable (Or.inl rfl)

/-- C10: if the user's channel list is absent or empty, post-now ends
the conversation with no send attempted and the Session slot exactly
as it was; with a nonempty channel list and a live session, the same
handler destroys the session after broadcasting. -/
theorem C10_empty_channels (store store2 : ChannelStore) (uid : String)
    (session : Option Session) (s2 : Session) (send : String → Bool)
    (h : (lookupStore store uid).getD [] = [])
    (h2 : (lookupStore store2 uid).getD [] ≠ []) :
    post_to_channels store uid session send = .ok ⟨session, [], []⟩ ∧
    (post_to_channels store2 uid (some s2) send).map (fun r => r.session) = .ok none := by
  constructor
  · simp [post_to_channels, h]
  · simp [post_to_channels, h2, Except.map]

/-- C10 witness: empty store versus one-channel store. -/
theorem C10_empty_channels_witness :
    post_to_channels [] "u"
        (some ⟨"t", ThumbKind.photo, [], BotType.xrated⟩) (fun _ => true)
      = .ok ⟨some ⟨"t", ThumbKind.photo, [], BotType.xrated⟩, [], []⟩ ∧
    (post_to_channels [("u", ["c"])] "u"
        (some ⟨"t", ThumbKind.photo, [], BotType.xrated⟩) (fun _ => true)).map
        (fun r => r.session) = .ok none :=
  C10_empty_channels [] [("u", ["c"])] "u"
    (some ⟨"t", ThumbKind.photo, [], BotType.xrated⟩)
    ⟨"t", ThumbKind.photo, [], BotType.xrated⟩ (fun _ => true) rfl (by decide)
